import Mathlib

/-!
# LuminYield Router Agent — shallow embedding and verification

A shallow embedding of `src/agents/luminyield_router_agent.py`: the rule-based
fallback classifier `fallback_yield_classification`, the two module-level
routing tables (`active_sessions`, `agent_to_user_mapping`, embedded as
insertion-ordered association lists with unique keys, matching Python `dict`
semantics), and the chat handler `handle_chat_message`, embedded as a pure
state-transition function returning the ordered list of outbound sends.

Abstractions (noted where used):
* Wall-clock reads (`datetime.now`) are modelled by a `now : Nat` parameter
  fixed for one handler invocation; ISO timestamp strings become `toString now`.
* Fresh `uuid4()` session ids become naturals drawn from a counter in the
  state; their string form in metadata is `toString` of the counter value.
* The remote ASI:One classification call is not modelled: the handler is
  parametric in a total classifier `classify : String → YieldQueryType`.  With
  no API credential configured, `classify_yield_query` in the source is
  exactly `fallback_yield_classification`, which is embedded in full.
* Outbound `ChatMessage` envelopes are reduced to their content list
  (the fresh `msg_id`/timestamp of an outbound message carries no information
  used anywhere); acknowledgements keep the referenced inbound id.
-/

namespace LuminYield

/-! ## String primitives: Python `str.lower`, `str.strip`, and `in` -/

/-- Python `str.lower`, character-wise (the source only lowercases ASCII-ish
query text). -/
def strToLower (s : String) : String :=
  String.mk (s.data.map Char.toLower)

/-- `charsAgree n h` : the character list `n` begins the character list `h`. -/
def charsAgree : List Char → List Char → Bool
  | [], _ => true
  | _ :: _, [] => false
  | a :: as, b :: bs => a == b && charsAgree as bs

/-- `charsHave n h` : the character list `n` occurs contiguously inside `h`. -/
def charsHave (needle : List Char) : List Char → Bool
  | [] => charsAgree needle []
  | c :: cs => charsAgree needle (c :: cs) || charsHave needle cs

/-- Python `needle in haystack` on strings (contiguous substring test). -/
def strContains (haystack needle : String) : Bool :=
  charsHave needle.data haystack.data

/-- Python `str.strip()`: drop whitespace from both ends. -/
def strTrim (s : String) : String :=
  String.mk (((s.data.dropWhile Char.isWhitespace).reverse.dropWhile
    Char.isWhitespace).reverse)

/-! ## Python `dict` as an insertion-ordered association list -/

/-- `d.get(k)` — first (unique) entry with key `k`. -/
def dictGet [BEq α] (m : List (α × β)) (k : α) : Option β :=
  (m.find? (fun e => e.1 == k)).map (fun e => e.2)

/-- `d[k] = v` — update in place if the key is present, else append. -/
def dictSet [BEq α] : List (α × β) → α → β → List (α × β)
  | [], k, v => [(k, v)]
  | (k', v') :: t, k, v =>
      if k' == k then (k', v) :: t else (k', v') :: dictSet t k v

/-- `d.values()`. -/
def dictValues (m : List (α × β)) : List β :=
  m.map (fun e => e.2)

/-- `del d[k]` (a no-op when the key is absent, as under the source's
`try/except KeyError`). -/
def dictDel [BEq α] (m : List (α × β)) (k : α) : List (α × β) :=
  m.filter (fun e => !(e.1 == k))

/-- The `dict` representation invariant: keys are pairwise distinct. -/
def dictNodup (m : List (α × β)) : Prop :=
  (m.map (fun e => e.1)).Nodup

instance instDecidableDictNodup [DecidableEq α] (m : List (α × β)) :
    Decidable (dictNodup m) := by
  unfold dictNodup
  infer_instance

/-! ## Classification (`YieldQueryType`, `fallback_yield_classification`) -/

/-- `YieldQueryType` enum of the source (line 42). -/
inductive YieldQueryType
  | YIELD_ANALYSIS
  | YIELD_COMPARISON
  | STRATEGY_RECOMMENDATION
  | RISK_ASSESSMENT
  | OUT_OF_SCOPE
deriving DecidableEq, Repr

/-- The enum's string value. -/
def YieldQueryType.value : YieldQueryType → String
  | .YIELD_ANALYSIS => "yield_analysis"
  | .YIELD_COMPARISON => "yield_comparison"
  | .STRATEGY_RECOMMENDATION => "strategy_recommendation"
  | .RISK_ASSESSMENT => "risk_assessment"
  | .OUT_OF_SCOPE => "out_of_scope"

/-- Source line 168. -/
def yield_keywords : List String :=
  ["yield", "apy", "apr", "return", "earn", "staking", "lending", "farming"]

/-- Source line 171. -/
def comparison_keywords : List String :=
  ["compare", "vs", "versus", "between", "better"]

/-- Source line 175. -/
def strategy_keywords : List String :=
  ["strategy", "best", "optimal", "recommend", "should"]

/-- Source line 179. -/
def risk_keywords : List String :=
  ["risk", "safe", "dangerous", "secure", "risky"]

/-- `fallback_yield_classification` (source lines 163–185): rule-based
classification, keyword groups checked in a fixed priority order. -/
def fallback_yield_classification (query : String) : YieldQueryType :=
  let query_lower := strToLower query
  if yield_keywords.any (fun keyword => strContains query_lower keyword) then
    if comparison_keywords.any (fun keyword => strContains query_lower keyword) then
      .YIELD_COMPARISON
    else if strategy_keywords.any (fun keyword => strContains query_lower keyword) then
      .STRATEGY_RECOMMENDATION
    else if risk_keywords.any (fun keyword => strContains query_lower keyword) then
      .RISK_ASSESSMENT
    else
      .YIELD_ANALYSIS
  else
    .OUT_OF_SCOPE

/-! ## Message model and router state -/

/-- Source line 58. -/
def ANALYZER_AGENT_ADDRESS : String :=
  "agent1qfkvecvpxw9vslza792mlwqrsl460d3n86dddvf9jpmqja6hs4xyqt9pzdp"

/-- Source line 59. -/
def STRATEGY_AGENT_ADDRESS : String :=
  "agent1q0qug02e3pg2gak5tlfw6xrslypqlhd4k5k8mqtedpfntd4zse9dj307ec3"

/-- One typed content item of a chat message (the four kinds the handler can
meet: `TextContent`, `StartSessionContent`, `EndSessionContent`,
`MetadataContent`). -/
inductive ContentItem
  | text (t : String)
  | startSession
  | endSession
  | metadataItem (kv : List (String × String))
deriving DecidableEq, Repr

/-- An inbound `ChatMessage`: its identifier plus its ordered content items. -/
structure ChatMsg where
  msg_id : Nat
  content : List ContentItem
deriving DecidableEq, Repr

/-- One outbound `ctx.send`: either a `ChatAcknowledgement` (carrying the
acknowledged inbound id) or a `ChatMessage` reduced to its content list. -/
inductive OutAction
  | ack (dest : String) (acknowledged_msg_id : Nat)
  | send (dest : String) (content : List ContentItem)
deriving DecidableEq, Repr

/-- `create_text_message` (source lines 72–82), reduced to the content list it
builds: a text item, then a metadata item when metadata is given. -/
def create_text_message (text : String)
    (metadata : Option (List (String × String))) : List ContentItem :=
  match metadata with
  | some md => [.text text, .metadataItem md]
  | none => [.text text]

/-- One `active_sessions` record (source lines 282–288 / 302–308); the ISO
`start_time` string is abstracted to the `now` tick. -/
structure SessionInfo where
  query : String
  query_type : String
  current_agent : String
  user_address : String
  start_time : Nat
deriving DecidableEq, Repr

/-- The router's module-level mutable state: `active_sessions` (line 65,
uuid keys abstracted to counter-issued naturals), `agent_to_user_mapping`
(line 69), and the counter issuing fresh session ids. -/
structure RouterState where
  active_sessions : List (Nat × SessionInfo)
  agent_to_user_mapping : List (String × String)
  nextSessionId : Nat
deriving DecidableEq, Repr

/-- The state at process start: both tables empty. -/
def initialState : RouterState :=
  { active_sessions := [], agent_to_user_mapping := [], nextSessionId := 0 }

/-- The Correlator `bind` of the spec: the dict assignment
`agent_to_user_mapping[destination] = originator` (source lines 279 / 299). -/
def bind (m : List (String × String)) (destination originator : String) :
    List (String × String) :=
  dictSet m destination originator

/-- The Correlator `resolve` of the spec: `agent_to_user_mapping.get(destination)`
(source line 330). -/
def resolve (m : List (String × String)) (destination : String) : Option String :=
  dictGet m destination

/-- The Correlator `forget_all_for` of the spec: the `EndSessionContent`
cleanup (source lines 317–324) — if the originator occurs among the values,
collect the keys bound to it and delete them one by one. -/
def forget_all_for (m : List (String × String)) (originator : String) :
    List (String × String) :=
  if (dictValues m).contains originator then
    let keys_to_delete := (m.filter (fun e => e.2 == originator)).map (fun e => e.1)
    keys_to_delete.foldl dictDel m
  else
    m

/-! ## The chat handler -/

/-- The welcome text sent on `StartSessionContent` (source line 227). -/
def welcome_text : String :=
  "Welcome to LuminYield! I can help you optimize yields on Solana DeFi. Ask me about yields, strategies, or risk assessment!"

/-- The welcome metadata (source line 228). -/
def welcome_metadata : List (String × String) :=
  [("capabilities", "yield_optimization"),
   ("supported_queries", "yield_analysis,yield_comparison,strategy_recommendation,risk_assessment")]

/-- The fixed out-of-scope reply (source lines 257–268, after `.strip()`;
the leading marks reproduce the characters present in the source bytes). -/
def out_of_scope_response : String :=
  "üö´ **Query Out of Scope**\n\nI\x27m specialized in **Solana DeFi yield optimization** only. I can help with:\n\n‚úÖ **Yield Analysis**: \"What\x27s the best yield for SOL?\"\n‚úÖ **Yield Comparison**: \"Compare Orca vs Raydium APYs\"\n‚úÖ **Strategy Recommendations**: \"Best strategy for $1000 USDC\"\n‚úÖ **Risk Assessment**: \"What are the risks of staking SOL?\"\n\nPlease ask about Solana DeFi yields, and I\x27ll route your query to the appropriate specialist agent!"

/-- `routing_metadata` (source lines 248–253). -/
def routing_metadata (session_id : Nat) (query_type : YieldQueryType) (now : Nat) :
    List (String × String) :=
  [("session_id", toString session_id),
   ("query_type", query_type.value),
   ("routed_by", "luminyield_router_agent"),
   ("timestamp", toString now)]

/-- The trailing specialist-reply check (source lines 329–340): runs after the
`if/elif` chain for a `TextContent` item; when the sender is one of the two
specialist addresses, look up the mapped user and forward the raw item text
with provenance metadata.  `if not user_addr` follows Python truthiness, so a
mapped empty string is also treated as unresolved. -/
def forwardCheck (now : Nat) (sender : String) (st : RouterState) (rawText : String) :
    List OutAction :=
  if sender == ANALYZER_AGENT_ADDRESS || sender == STRATEGY_AGENT_ADDRESS then
    match dictGet st.agent_to_user_mapping sender with
    | none => []
    | some user_addr =>
        if user_addr == "" then []
        else
          [.send user_addr (create_text_message rawText
            (some [("forwarded_from", sender), ("timestamp", toString now)]))]
  else
    []

/-- Handling of one content item of the loop body (source lines 222–340).
Returns the new state, the sends it produced in order, and whether the
handler `return`ed (which the out-of-scope branch does, source line 272).
A `TextContent` item whose stripped text is empty hits `continue` (line 236),
which also skips the trailing specialist-reply check for that item. -/
def processItem (classify : String → YieldQueryType) (now : Nat) (sender : String)
    (st : RouterState) (item : ContentItem) : RouterState × List OutAction × Bool :=
  match item with
  | .startSession =>
      (st, [.send sender (create_text_message welcome_text (some welcome_metadata))], false)
  | .text t =>
      let query := strTrim t
      if query = "" then
        (st, [], false)
      else
        let session_id := st.nextSessionId
        let st1 : RouterState := { st with nextSessionId := st.nextSessionId + 1 }
        let query_type := classify query
        let md := routing_metadata session_id query_type now
        if query_type = .OUT_OF_SCOPE then
          (st1, [.send sender (create_text_message out_of_scope_response (some md))], true)
        else
          let (st2, routeActs) :=
            if query_type = .YIELD_ANALYSIS ∨ query_type = .YIELD_COMPARISON then
              ({ st1 with
                   agent_to_user_mapping :=
                     dictSet st1.agent_to_user_mapping ANALYZER_AGENT_ADDRESS sender,
                   active_sessions :=
                     dictSet st1.active_sessions session_id
                       { query := query, query_type := query_type.value,
                         current_agent := "analyzer", user_address := sender,
                         start_time := now } },
               [OutAction.send ANALYZER_AGENT_ADDRESS (create_text_message query (some md))])
            else
              ({ st1 with
                   agent_to_user_mapping :=
                     dictSet st1.agent_to_user_mapping STRATEGY_AGENT_ADDRESS sender,
                   active_sessions :=
                     dictSet st1.active_sessions session_id
                       { query := query, query_type := query_type.value,
                         current_agent := "strategy", user_address := sender,
                         start_time := now } },
               [OutAction.send STRATEGY_AGENT_ADDRESS (create_text_message query (some md))])
          (st2, routeActs ++ forwardCheck now sender st2 t, false)
  | .endSession =>
      ({ st with agent_to_user_mapping := forget_all_for st.agent_to_user_mapping sender },
       [], false)
  | .metadataItem _ =>
      (st, [], false)

/-- The `for item in msg.content` loop (source line 222), cut short when an
item `return`s. -/
def processItems (classify : String → YieldQueryType) (now : Nat) (sender : String) :
    RouterState → List ContentItem → RouterState × List OutAction
  | st, [] => (st, [])
  | st, item :: rest =>
      let (st1, acts, stop) := processItem classify now sender st item
      if stop then (st1, acts)
      else
        let (st2, acts2) := processItems classify now sender st1 rest
        (st2, acts ++ acts2)

/-- `handle_chat_message` (source lines 211–340): acknowledge first
(unconditionally), then process the content items in order. -/
def handle_chat_message (classify : String → YieldQueryType) (now : Nat)
    (st : RouterState) (sender : String) (msg : ChatMsg) :
    RouterState × List OutAction :=
  let (st1, acts) := processItems classify now sender st msg.content
  (st1, .ack sender msg.msg_id :: acts)

/-- The destination address of an outbound action. -/
def OutAction.dest : OutAction → String
  | .ack d _ => d
  | .send d _ => d

/-- Whether an outbound action is an acknowledgement. -/
def OutAction.isAck : OutAction → Bool
  | .ack _ _ => true
  | .send _ _ => false

/-- Freshness of the session-id counter: every stored session key was issued
below the counter (uuid4 collision-freedom, in counter form). -/
def SessionsFresh (st : RouterState) : Prop :=
  ∀ p ∈ st.active_sessions, p.1 < st.nextSessionId

/-- Handle a whole sequence of inbound messages (each with its wall-clock
tick and sender), threading the router state. -/
def handleAll (classify : String → YieldQueryType)
    (msgs : List (Nat × String × ChatMsg)) (st : RouterState) : RouterState :=
  msgs.foldl (fun s nm => (handle_chat_message classify nm.1 s nm.2.1 nm.2.2).1) st

/-! ## Association-list (`dict`) lemmas -/

theorem dictGet_dictSet_self [BEq α] [LawfulBEq α] (m : List (α × β)) (k : α) (v : β) :
    dictGet (dictSet m k v) k = some v := by
  induction m with
  | nil => simp [dictGet, dictSet]
  | cons e t ih =>
      obtain ⟨k', v'⟩ := e
      by_cases h : k' = k
      · subst h
        simp [dictGet, dictSet]
      · have hb : (k' == k) = false := by simp [h]
        simp only [dictSet, hb, if_neg, Bool.false_eq_true, ite_false]
        simpa [dictGet, List.find?, hb] using ih

theorem dictGet_eq_none_of_not_mem [BEq α] [LawfulBEq α] (m : List (α × β)) (k : α)
    (h : k ∉ m.map (fun e => e.1)) : dictGet m k = none := by
  unfold dictGet
  rw [List.find?_eq_none.mpr]
  · rfl
  · intro e he
    simp only [beq_iff_eq]
    intro hek
    exact h (hek ▸ List.mem_map_of_mem (fun e => e.1) he)

theorem dictSet_keys_of_mem [BEq α] [LawfulBEq α] (m : List (α × β)) (k : α) (v : β)
    (h : k ∈ m.map (fun e => e.1)) :
    (dictSet m k v).map (fun e => e.1) = m.map (fun e => e.1) := by
  induction m with
  | nil => simp at h
  | cons e t ih =>
      obtain ⟨k', v'⟩ := e
      by_cases hk : k' = k
      · subst hk
        simp [dictSet]
      · have hb : (k' == k) = false := by simp [hk]
        have h' : k ∈ t.map (fun e => e.1) := by
          rw [List.map_cons] at h
          rcases List.mem_cons.mp h with h0 | h0
          · exact absurd h0.symm hk
          · exact h0
        simp [dictSet, hb, ih h']

theorem dictSet_append_of_fresh [BEq α] [LawfulBEq α] (m : List (α × β)) (k : α) (v : β)
    (h : k ∉ m.map (fun e => e.1)) :
    dictSet m k v = m ++ [(k, v)] := by
  induction m with
  | nil => simp [dictSet]
  | cons e t ih =>
      obtain ⟨k', v'⟩ := e
      rw [List.map_cons] at h
      have hk : k ≠ k' := fun hkk => h (hkk ▸ List.mem_cons_self _ _)
      have h' : k ∉ t.map (fun e => e.1) := fun hm => h (List.mem_cons_of_mem _ hm)
      have hb : (k' == k) = false := by
        simp only [beq_eq_false_iff_ne, ne_eq]
        exact fun e => hk e.symm
      simp [dictSet, hb, ih h']

theorem dictNodup_dictSet [BEq α] [LawfulBEq α] (m : List (α × β)) (k : α) (v : β)
    (h : dictNodup m) : dictNodup (dictSet m k v) := by
  by_cases hk : k ∈ m.map (fun e => e.1)
  · unfold dictNodup
    rw [dictSet_keys_of_mem m k v hk]
    exact h
  · unfold dictNodup at h ⊢
    rw [dictSet_append_of_fresh m k v hk, List.map_append]
    rw [List.nodup_append_comm]
    simp only [List.map_cons, List.map_nil, List.singleton_append, List.nodup_cons]
    exact ⟨hk, h⟩

theorem countP_key_le_one [BEq α] [LawfulBEq α] (m : List (α × β)) (k : α)
    (h : dictNodup m) : m.countP (fun e => e.1 == k) ≤ 1 := by
  induction m with
  | nil => simp
  | cons e t ih =>
      rw [dictNodup, List.map_cons, List.nodup_cons] at h
      by_cases hk : e.1 = k
      · rw [List.countP_cons_of_pos _ _ (by simp [hk])]
        have hz : t.countP (fun x => x.1 == k) = 0 := by
          apply List.countP_eq_zero.mpr
          intro a ha
          simp only [beq_iff_eq]
          intro hak
          have hmem : a.1 ∈ t.map (fun x => x.1) := List.mem_map_of_mem _ ha
          rw [hak, ← hk] at hmem
          exact h.1 hmem
        omega
      · rw [List.countP_cons_of_neg _ _ (by simp [hk])]
        exact ih h.2

theorem dictGet_filter_none [BEq α] (m : List (α × β)) (k : α) (p : α × β → Bool)
    (h : dictGet m k = none) : dictGet (m.filter p) k = none := by
  unfold dictGet at h ⊢
  have h' : m.find? (fun e => e.1 == k) = none := by
    cases hf : m.find? (fun e => e.1 == k) with
    | none => rfl
    | some e => rw [hf] at h; simp at h
  rw [List.find?_eq_none.mpr]
  · rfl
  · intro e he
    exact List.find?_eq_none.mp h' e (List.mem_of_mem_filter he)

theorem dictGet_filter [BEq α] [LawfulBEq α] (m : List (α × β)) (k : α) (v : β)
    (p : α × β → Bool) (hn : dictNodup m) (h : dictGet m k = some v) :
    dictGet (m.filter p) k = if p (k, v) then some v else none := by
  induction m with
  | nil => simp [dictGet] at h
  | cons e t ih =>
      obtain ⟨k', v'⟩ := e
      rw [dictNodup, List.map_cons, List.nodup_cons] at hn
      by_cases hk : k' = k
      · subst hk
        have hv : v' = v := by
          simpa [dictGet, List.find?] using h
        subst hv
        by_cases hp : p (k', v')
        · simp [List.filter, hp, dictGet, List.find?]
        · simp only [List.filter, hp, Bool.false_eq_true, ite_false, if_neg]
          exact dictGet_filter_none t k' p (dictGet_eq_none_of_not_mem t k' hn.1)
      · have hb : (k' == k) = false := by simp [hk]
        have h' : dictGet t k = some v := by
          simpa [dictGet, List.find?, hb] using h
        have ihr := ih hn.2 h'
        by_cases hp : p (k', v')
        · simpa [List.filter, hp, dictGet, List.find?, hb] using ihr
        · simpa [List.filter, hp] using ihr

theorem dictGet_some_mem_values [BEq α] (m : List (α × β)) (k : α) (v : β)
    (h : dictGet m k = some v) : v ∈ dictValues m := by
  unfold dictGet at h
  cases hf : m.find? (fun e => e.1 == k) with
  | none => rw [hf] at h; simp at h
  | some e =>
      rw [hf] at h
      simp at h
      have he : e ∈ m := List.mem_of_find?_eq_some hf
      exact h ▸ List.mem_map_of_mem (fun e => e.2) he

/-! ## `forget_all_for` characterization -/

theorem foldl_dictDel [BEq α] (ks : List α) (m : List (α × β)) :
    ks.foldl dictDel m = m.filter (fun e => !(ks.contains e.1)) := by
  induction ks generalizing m with
  | nil => simp
  | cons k ks ih =>
      rw [List.foldl_cons, ih, dictDel, List.filter_filter]
      apply List.filter_congr
      intro e _
      simp only [List.contains_cons]
      cases h1 : e.1 == k <;> cases h2 : ks.contains e.1 <;> simp [h1, h2]

theorem forget_all_for_eq_filter (m : List (String × String)) (orig : String)
    (hn : dictNodup m) :
    forget_all_for m orig = m.filter (fun e => !(e.2 == orig)) := by
  unfold forget_all_for
  by_cases hc : (dictValues m).contains orig
  · simp only [hc, if_pos]
    rw [foldl_dictDel]
    apply List.filter_congr
    intro e he
    have : ((m.filter (fun e => e.2 == orig)).map (fun e => e.1)).contains e.1
        = (e.2 == orig) := by
      cases hev : e.2 == orig with
      | true =>
          exact List.elem_iff.mpr
            (List.mem_map_of_mem _ (List.mem_filter.mpr ⟨he, hev⟩))
      | false =>
          rw [Bool.eq_false_iff]
          intro hmem
          have hmem' := List.elem_iff.mp hmem
          rcases List.mem_map.mp hmem' with ⟨e', he', hkey⟩
          rcases List.mem_filter.mp he' with ⟨he'm, he'v⟩
          have hee : e' = e := List.inj_on_of_nodup_map hn he'm he hkey
          rw [hee] at he'v
          rw [he'v] at hev
          cases hev
    rw [this]
  · simp only [hc, if_neg, Bool.false_eq_true]
    symm
    apply List.filter_eq_self.mpr
    intro e he
    simp only [Bool.not_eq_eq_eq_not, Bool.not_true, beq_eq_false_iff_ne, ne_eq]
    intro hev
    exact hc (List.elem_iff.mpr (hev ▸ List.mem_map_of_mem (fun e => e.2) he))

/-! ## Handler lemmas -/

theorem processItems_out_of_scope (classify : String → YieldQueryType) (now : Nat)
    (sender : String) (st : RouterState) (q : String) (rest : List ContentItem)
    (hq : strTrim q ≠ "") (hc : classify (strTrim q) = .OUT_OF_SCOPE) :
    processItems classify now sender st (.text q :: rest) =
      ({ st with nextSessionId := st.nextSessionId + 1 },
       [.send sender (create_text_message out_of_scope_response
          (some (routing_metadata st.nextSessionId .OUT_OF_SCOPE now)))]) := by
  unfold processItems processItem
  simp [hq, hc]

theorem handle_out_of_scope (classify : String → YieldQueryType) (now : Nat)
    (st : RouterState) (sender : String) (q : String) (rest : List ContentItem)
    (i : Nat) (hq : strTrim q ≠ "") (hc : classify (strTrim q) = .OUT_OF_SCOPE) :
    handle_chat_message classify now st sender ⟨i, .text q :: rest⟩ =
      ({ st with nextSessionId := st.nextSessionId + 1 },
       [.ack sender i,
        .send sender (create_text_message out_of_scope_response
          (some (routing_metadata st.nextSessionId .OUT_OF_SCOPE now)))]) := by
  unfold handle_chat_message
  rw [processItems_out_of_scope classify now sender st q rest hq hc]

theorem forwardCheck_no_ack (now : Nat) (sender : String) (st : RouterState)
    (rawText : String) :
    ∀ a ∈ forwardCheck now sender st rawText, a.isAck = false := by
  intro a ha
  unfold forwardCheck at ha
  split at ha
  · cases hm : dictGet st.agent_to_user_mapping sender with
    | none => rw [hm] at ha; simp at ha
    | some u =>
        rw [hm] at ha
        split at ha
        · simp at ha
        · simp at ha
          rw [ha.2]
          rfl
  · simp at ha

theorem processItem_no_ack (classify : String → YieldQueryType) (now : Nat)
    (sender : String) (st : RouterState) (item : ContentItem) :
    ∀ a ∈ (processItem classify now sender st item).2.1, a.isAck = false := by
  intro a ha
  cases item with
  | startSession =>
      simp [processItem] at ha
      subst ha
      rfl
  | endSession => simp [processItem] at ha
  | metadataItem kv => simp [processItem] at ha
  | text t =>
      by_cases hq : strTrim t = ""
      · simp [processItem, hq] at ha
      · cases hqt : classify (strTrim t) with
        | OUT_OF_SCOPE =>
            simp [processItem, hq, hqt] at ha
            subst ha
            rfl
        | YIELD_ANALYSIS =>
            simp [processItem, hq, hqt] at ha
            rcases ha with ha | ha
            · subst ha; rfl
            · exact forwardCheck_no_ack now sender _ t a ha
        | YIELD_COMPARISON =>
            simp [processItem, hq, hqt] at ha
            rcases ha with ha | ha
            · subst ha; rfl
            · exact forwardCheck_no_ack now sender _ t a ha
        | STRATEGY_RECOMMENDATION =>
            simp [processItem, hq, hqt] at ha
            rcases ha with ha | ha
            · subst ha; rfl
            · exact forwardCheck_no_ack now sender _ t a ha
        | RISK_ASSESSMENT =>
            simp [processItem, hq, hqt] at ha
            rcases ha with ha | ha
            · subst ha; rfl
            · exact forwardCheck_no_ack now sender _ t a ha

theorem processItems_no_ack (classify : String → YieldQueryType) (now : Nat)
    (sender : String) (items : List ContentItem) :
    ∀ st, ∀ a ∈ (processItems classify now sender st items).2, a.isAck = false := by
  induction items with
  | nil => intro st a ha; simp [processItems] at ha
  | cons item rest ih =>
      intro st a ha
      unfold processItems at ha
      have h1 := processItem_no_ack classify now sender st item
      rcases hpi : processItem classify now sender st item with ⟨st1, acts, stop⟩
      rw [hpi] at ha h1
      cases stop with
      | true =>
          simp at ha
          exact h1 a ha
      | false =>
          simp at ha
          rcases ha with ha | ha
          · exact h1 a ha
          · exact ih st1 a ha

theorem nextSid_not_mem_keys (st : RouterState) (h : SessionsFresh st) :
    st.nextSessionId ∉ st.active_sessions.map (fun e => e.1) := by
  intro hm
  rcases List.mem_map.mp hm with ⟨p, hp, hk⟩
  have := h p hp
  omega

theorem routedState_grow (st : RouterState) (mapping : List (String × String))
    (info : SessionInfo) (h : SessionsFresh st) :
    (∃ new, ({ st with
                 nextSessionId := st.nextSessionId + 1,
                 agent_to_user_mapping := mapping,
                 active_sessions := dictSet st.active_sessions st.nextSessionId info } :
          RouterState).active_sessions = st.active_sessions ++ new) ∧
    SessionsFresh { st with
                      nextSessionId := st.nextSessionId + 1,
                      agent_to_user_mapping := mapping,
                      active_sessions :=
                        dictSet st.active_sessions st.nextSessionId info } := by
  have hset := dictSet_append_of_fresh st.active_sessions st.nextSessionId info
    (nextSid_not_mem_keys st h)
  constructor
  · exact ⟨[(st.nextSessionId, info)], hset⟩
  · intro p hp
    have hp' : p ∈ dictSet st.active_sessions st.nextSessionId info := hp
    rw [hset] at hp'
    rcases List.mem_append.mp hp' with hm | hm
    · have := h p hm
      show p.1 < st.nextSessionId + 1
      omega
    · simp at hm
      show p.1 < st.nextSessionId + 1
      rw [hm]
      exact Nat.lt_succ_self _

theorem processItem_sessions_grow (classify : String → YieldQueryType) (now : Nat)
    (sender : String) (st : RouterState) (item : ContentItem) (h : SessionsFresh st) :
    (∃ new, (processItem classify now sender st item).1.active_sessions =
       st.active_sessions ++ new) ∧
    SessionsFresh (processItem classify now sender st item).1 := by
  cases item with
  | startSession => exact ⟨⟨[], (List.append_nil _).symm⟩, fun p hp => h p hp⟩
  | metadataItem kv => exact ⟨⟨[], (List.append_nil _).symm⟩, fun p hp => h p hp⟩
  | endSession => exact ⟨⟨[], (List.append_nil _).symm⟩, fun p hp => h p hp⟩
  | text t =>
      by_cases hq : strTrim t = ""
      · have heq : (processItem classify now sender st (.text t)).1 = st := by
          simp [processItem, hq]
        rw [heq]
        exact ⟨⟨[], (List.append_nil _).symm⟩, h⟩
      · cases hqt : classify (strTrim t) with
        | OUT_OF_SCOPE =>
            have heq : (processItem classify now sender st (.text t)).1 =
                { st with nextSessionId := st.nextSessionId + 1 } := by
              simp [processItem, hq, hqt]
            rw [heq]
            refine ⟨⟨[], (List.append_nil _).symm⟩, ?_⟩
            intro p hp
            have := h p hp
            show p.1 < st.nextSessionId + 1
            omega
        | YIELD_ANALYSIS =>
            have heq : (processItem classify now sender st (.text t)).1 =
                { st with
                    nextSessionId := st.nextSessionId + 1,
                    agent_to_user_mapping :=
                      dictSet st.agent_to_user_mapping ANALYZER_AGENT_ADDRESS sender,
                    active_sessions :=
                      dictSet st.active_sessions st.nextSessionId
                        { query := strTrim t,
                          query_type := YieldQueryType.YIELD_ANALYSIS.value,
                          current_agent := "analyzer", user_address := sender,
                          start_time := now } } := by
              simp [processItem, hq, hqt]
            rw [heq]
            exact routedState_grow st _ _ h
        | YIELD_COMPARISON =>
            have heq : (processItem classify now sender st (.text t)).1 =
                { st with
                    nextSessionId := st.nextSessionId + 1,
                    agent_to_user_mapping :=
                      dictSet st.agent_to_user_mapping ANALYZER_AGENT_ADDRESS sender,
                    active_sessions :=
                      dictSet st.active_sessions st.nextSessionId
                        { query := strTrim t,
                          query_type := YieldQueryType.YIELD_COMPARISON.value,
                          current_agent := "analyzer", user_address := sender,
                          start_time := now } } := by
              simp [processItem, hq, hqt]
            rw [heq]
            exact routedState_grow st _ _ h
        | STRATEGY_RECOMMENDATION =>
            have heq : (processItem classify now sender st (.text t)).1 =
                { st with
                    nextSessionId := st.nextSessionId + 1,
                    agent_to_user_mapping :=
                      dictSet st.agent_to_user_mapping STRATEGY_AGENT_ADDRESS sender,
                    active_sessions :=
                      dictSet st.active_sessions st.nextSessionId
                        { query := strTrim t,
                          query_type := YieldQueryType.STRATEGY_RECOMMENDATION.value,
                          current_agent := "strategy", user_address := sender,
                          start_time := now } } := by
              simp [processItem, hq, hqt]
            rw [heq]
            exact routedState_grow st _ _ h
        | RISK_ASSESSMENT =>
            have heq : (processItem classify now sender st (.text t)).1 =
                { st with
                    nextSessionId := st.nextSessionId + 1,
                    agent_to_user_mapping :=
                      dictSet st.agent_to_user_mapping STRATEGY_AGENT_ADDRESS sender,
                    active_sessions :=
                      dictSet st.active_sessions st.nextSessionId
                        { query := strTrim t,
                          query_type := YieldQueryType.RISK_ASSESSMENT.value,
                          current_agent := "strategy", user_address := sender,
                          start_time := now } } := by
              simp [processItem, hq, hqt]
            rw [heq]
            exact routedState_grow st _ _ h

theorem processItems_sessions_grow (classify : String → YieldQueryType) (now : Nat)
    (sender : String) (items : List ContentItem) :
    ∀ st, SessionsFresh st →
    (∃ new, (processItems classify now sender st items).1.active_sessions =
       st.active_sessions ++ new) ∧
    SessionsFresh (processItems classify now sender st items).1 := by
  induction items with
  | nil =>
      intro st h
      exact ⟨⟨[], (List.append_nil _).symm⟩, h⟩
  | cons item rest ih =>
      intro st h
      have h1 := processItem_sessions_grow classify now sender st item h
      unfold processItems
      rcases hpi : processItem classify now sender st item with ⟨st1, acts, stop⟩
      rw [hpi] at h1
      obtain ⟨⟨new1, hnew1⟩, hfresh1⟩ := h1
      cases stop with
      | true => exact ⟨⟨new1, hnew1⟩, hfresh1⟩
      | false =>
          obtain ⟨⟨new2, hnew2⟩, hfresh2⟩ := ih st1 hfresh1
          refine ⟨⟨new1 ++ new2, ?_⟩, hfresh2⟩
          show (processItems classify now sender st1 rest).1.active_sessions =
            st.active_sessions ++ (new1 ++ new2)
          rw [hnew2, hnew1, List.append_assoc]

theorem handle_sessions_grow (classify : String → YieldQueryType) (now : Nat)
    (st : RouterState) (sender : String) (msg : ChatMsg) (h : SessionsFresh st) :
    (∃ new, (handle_chat_message classify now st sender msg).1.active_sessions =
       st.active_sessions ++ new) ∧
    SessionsFresh (handle_chat_message classify now st sender msg).1 := by
  have hgrow := processItems_sessions_grow classify now sender msg.content st h
  unfold handle_chat_message
  rcases hp : processItems classify now sender st msg.content with ⟨st1, acts⟩
  rw [hp] at hgrow
  exact hgrow

theorem handleAll_sessions_grow (classify : String → YieldQueryType)
    (msgs : List (Nat × String × ChatMsg)) :
    ∀ st, SessionsFresh st →
    (∃ new, (handleAll classify msgs st).active_sessions =
       st.active_sessions ++ new) ∧
    SessionsFresh (handleAll classify msgs st) := by
  induction msgs with
  | nil =>
      intro st h
      exact ⟨⟨[], (List.append_nil _).symm⟩, h⟩
  | cons nm rest ih =>
      intro st h
      obtain ⟨⟨new1, hnew1⟩, hfresh1⟩ :=
        handle_sessions_grow classify nm.1 st nm.2.1 nm.2.2 h
      obtain ⟨⟨new2, hnew2⟩, hfresh2⟩ :=
        ih (handle_chat_message classify nm.1 st nm.2.1 nm.2.2).1 hfresh1
      refine ⟨⟨new1 ++ new2, ?_⟩, ?_⟩
      · show (handleAll classify rest
            (handle_chat_message classify nm.1 st nm.2.1 nm.2.2).1).active_sessions =
          st.active_sessions ++ (new1 ++ new2)
        rw [hnew2, hnew1, List.append_assoc]
      · exact hfresh2

/-! ## Claim theorems -/

set_option maxRecDepth 16384

/-- C1 (the code violates the claim): with a pending binding `analyzer ↦ U1`, a
text reply arriving from the analyzer address is re-classified as a fresh
query — a new session is created, the binding is overwritten to point at the
analyzer itself, the reply text is forwarded to a specialist address, nothing
at all is sent to `U1`, and the handler's outcome depends on the classifier. -/
theorem c1_specialist_reply_reclassified :
    let st0 : RouterState :=
      { active_sessions := [],
        agent_to_user_mapping := [(ANALYZER_AGENT_ADDRESS, "U1")],
        nextSessionId := 0 }
    let msg : ChatMsg := { msg_id := 2, content := [.text "Staking yields 7% apy"] }
    let r := handle_chat_message fallback_yield_classification 0 st0
      ANALYZER_AGENT_ADDRESS msg
    r.1.active_sessions ≠ [] ∧
    resolve r.1.agent_to_user_mapping ANALYZER_AGENT_ADDRESS =
      some ANALYZER_AGENT_ADDRESS ∧
    (OutAction.send ANALYZER_AGENT_ADDRESS
      (create_text_message "Staking yields 7% apy"
        (some (routing_metadata 0 .YIELD_ANALYSIS 0))) ∈ r.2) ∧
    (∀ a ∈ r.2, OutAction.dest a ≠ "U1") ∧
    handle_chat_message fallback_yield_classification 0 st0 ANALYZER_AGENT_ADDRESS msg ≠
      handle_chat_message (fun _ => .OUT_OF_SCOPE) 0 st0 ANALYZER_AGENT_ADDRESS msg := by
  decide

/-- C2 (the code violates the claim): on the fallback path the input
"What\x27s the best yield for SOL?" from `U1` is classified
`STRATEGY_RECOMMENDATION` (the text contains the strategy keyword "best"),
not `YIELD_ANALYSIS`; the binding recorded is `(strategy, U1)` and the query
is forwarded to the strategy address, while `resolve(analyzer)` stays empty. -/
theorem c2_best_yield_query_misrouted :
    fallback_yield_classification (strTrim "What\x27s the best yield for SOL?") =
      .STRATEGY_RECOMMENDATION ∧
    fallback_yield_classification (strTrim "What\x27s the best yield for SOL?") ≠
      .YIELD_ANALYSIS ∧
    handle_chat_message fallback_yield_classification 0 initialState "U1"
      { msg_id := 1, content := [.text "What\x27s the best yield for SOL?"] } =
    ({ active_sessions :=
         [(0, { query := "What\x27s the best yield for SOL?",
                query_type := "strategy_recommendation",
                current_agent := "strategy",
                user_address := "U1",
                start_time := 0 })],
       agent_to_user_mapping := [(STRATEGY_AGENT_ADDRESS, "U1")],
       nextSessionId := 1 },
     [.ack "U1" 1,
      .send STRATEGY_AGENT_ADDRESS
        (create_text_message "What\x27s the best yield for SOL?"
          (some (routing_metadata 0 .STRATEGY_RECOMMENDATION 0)))]) ∧
    resolve [(STRATEGY_AGENT_ADDRESS, "U1")] ANALYZER_AGENT_ADDRESS = none := by
  decide

/-- C3 counterexample: "best yield risk" contains "yield" and "risk" and none
of the comparison terms, yet the fallback returns `STRATEGY_RECOMMENDATION`,
not `RISK_ASSESSMENT` — the strategy-keyword check (here: "best") precedes the
risk-keyword check. -/
theorem c3_counterexample :
    strContains (strToLower "best yield risk") "yield" = true ∧
    strContains (strToLower "best yield risk") "risk" = true ∧
    (∀ k ∈ comparison_keywords, strContains (strToLower "best yield risk") k = false) ∧
    fallback_yield_classification "best yield risk" = .STRATEGY_RECOMMENDATION ∧
    fallback_yield_classification "best yield risk" ≠ .RISK_ASSESSMENT := by
  decide

/-- C4 counterexample: a message `[text "hello", end-session]` from `U1`, with
a live binding `analyzer ↦ U1`, is cut short by the out-of-scope `return`: the
end-session item is never processed, so the binding survives — even though
processing the end-session item would have removed it. -/
theorem c4_counterexample :
    let st0 : RouterState :=
      { active_sessions := [],
        agent_to_user_mapping := [(ANALYZER_AGENT_ADDRESS, "U1")],
        nextSessionId := 0 }
    let msg : ChatMsg := { msg_id := 3, content := [.text "hello", .endSession] }
    let r := handle_chat_message fallback_yield_classification 0 st0 "U1" msg
    r.1.agent_to_user_mapping = [(ANALYZER_AGENT_ADDRESS, "U1")] ∧
    forget_all_for [(ANALYZER_AGENT_ADDRESS, "U1")] "U1" = [] ∧
    r.2 = [.ack "U1" 3,
      .send "U1" (create_text_message out_of_scope_response
        (some (routing_metadata 0 .OUT_OF_SCOPE 0)))] := by
  decide

/-- C5 (confirmed): `bind` then `resolve` returns the bound originator; a
second `bind` to the same destination silently overwrites (last-write-wins);
and the map keeps at most one entry per destination key. -/
theorem c5_bind_overwrite (m : List (String × String)) (D U U2 : String)
    (h : dictNodup m) :
    resolve (bind m D U) D = some U ∧
    resolve (bind (bind m D U) D U2) D = some U2 ∧
    dictNodup (bind m D U) ∧
    (∀ D', (bind m D U).countP (fun e => e.1 == D') ≤ 1) :=
  ⟨dictGet_dictSet_self m D U,
   dictGet_dictSet_self (dictSet m D U) D U2,
   dictNodup_dictSet m D U h,
   fun D' => countP_key_le_one (dictSet m D U) D' (dictNodup_dictSet m D U h)⟩

/-- C5 witness at a concrete map. -/
theorem c5_bind_overwrite_witness :
    resolve (bind [(STRATEGY_AGENT_ADDRESS, "U0")] ANALYZER_AGENT_ADDRESS "U1")
      ANALYZER_AGENT_ADDRESS = some "U1" ∧
    resolve (bind (bind [(STRATEGY_AGENT_ADDRESS, "U0")] ANALYZER_AGENT_ADDRESS "U1")
      ANALYZER_AGENT_ADDRESS "U2") ANALYZER_AGENT_ADDRESS = some "U2" ∧
    dictNodup (bind [(STRATEGY_AGENT_ADDRESS, "U0")] ANALYZER_AGENT_ADDRESS "U1") ∧
    (∀ D', (bind [(STRATEGY_AGENT_ADDRESS, "U0")] ANALYZER_AGENT_ADDRESS "U1").countP
      (fun e => e.1 == D') ≤ 1) :=
  c5_bind_overwrite [(STRATEGY_AGENT_ADDRESS, "U0")] ANALYZER_AGENT_ADDRESS "U1" "U2"
    (by decide)

/-- C7 (confirmed): `forget_all_for U` removes exactly the bindings whose
originator is `U`: resolving any destination previously bound to `U` now
fails, and any destination bound to a different originator resolves
unchanged. -/
theorem c7_forget_all_for_exact (m : List (String × String)) (U : String)
    (h : dictNodup m) :
    (∀ D, resolve m D = some U → resolve (forget_all_for m U) D = none) ∧
    (∀ D V, resolve m D = some V → V ≠ U → resolve (forget_all_for m U) D = some V) := by
  constructor
  · intro D hD
    simp only [resolve] at hD ⊢
    rw [forget_all_for_eq_filter m U h]
    rw [dictGet_filter m D U (fun e => !(e.2 == U)) h hD]
    simp
  · intro D V hD hVU
    simp only [resolve] at hD ⊢
    rw [forget_all_for_eq_filter m U h]
    rw [dictGet_filter m D V (fun e => !(e.2 == U)) h hD]
    simp [hVU]

/-- C7 witness at a concrete two-entry map. -/
theorem c7_forget_all_for_exact_witness :
    resolve (forget_all_for
      [(ANALYZER_AGENT_ADDRESS, "U1"), (STRATEGY_AGENT_ADDRESS, "U2")] "U1")
      ANALYZER_AGENT_ADDRESS = none ∧
    resolve (forget_all_for
      [(ANALYZER_AGENT_ADDRESS, "U1"), (STRATEGY_AGENT_ADDRESS, "U2")] "U1")
      STRATEGY_AGENT_ADDRESS = some "U2" :=
  ⟨(c7_forget_all_for_exact
      [(ANALYZER_AGENT_ADDRESS, "U1"), (STRATEGY_AGENT_ADDRESS, "U2")] "U1"
      (by decide)).1 ANALYZER_AGENT_ADDRESS (by decide),
   (c7_forget_all_for_exact
      [(ANALYZER_AGENT_ADDRESS, "U1"), (STRATEGY_AGENT_ADDRESS, "U2")] "U1"
      (by decide)).2 STRATEGY_AGENT_ADDRESS "U2" (by decide) (by decide)⟩

/-- C4 (amended): when a text item classifies as `OUT_OF_SCOPE`, the router
replies and stops processing the ENTIRE message — every content item after the
out-of-scope text item is skipped, and the only state change is the consumed
session-id. -/
theorem c4_out_of_scope_aborts_whole_message (classify : String → YieldQueryType)
    (now : Nat) (st : RouterState) (sender q : String) (rest : List ContentItem)
    (i : Nat) (hq : strTrim q ≠ "") (hc : classify (strTrim q) = .OUT_OF_SCOPE) :
    handle_chat_message classify now st sender ⟨i, .text q :: rest⟩ =
      ({ st with nextSessionId := st.nextSessionId + 1 },
       [.ack sender i,
        .send sender (create_text_message out_of_scope_response
          (some (routing_metadata st.nextSessionId .OUT_OF_SCOPE now)))]) :=
  handle_out_of_scope classify now st sender q rest i hq hc

/-- C4 witness: the amended claim at the counterexample's input. -/
theorem c4_out_of_scope_aborts_whole_message_witness :
    handle_chat_message fallback_yield_classification 0 initialState "U2"
      ⟨7, [.text "hello", .endSession]⟩ =
      ({ initialState with nextSessionId := initialState.nextSessionId + 1 },
       [.ack "U2" 7,
        .send "U2" (create_text_message out_of_scope_response
          (some (routing_metadata initialState.nextSessionId .OUT_OF_SCOPE 0)))]) :=
  c4_out_of_scope_aborts_whole_message fallback_yield_classification 0 initialState
    "U2" "hello" [.endSession] 7 (by decide) (by decide)

/-- C6 (confirmed): an out-of-scope query creates no session and no binding:
the fixed reply goes straight back to the sender and both the session store
and the binding map (in particular `resolve(analyzer)`) are unchanged. -/
theorem c6_out_of_scope_creates_no_state (classify : String → YieldQueryType)
    (now : Nat) (st : RouterState) (sender q : String) (i : Nat)
    (hq : strTrim q ≠ "") (hc : classify (strTrim q) = .OUT_OF_SCOPE) :
    (handle_chat_message classify now st sender ⟨i, [.text q]⟩).1.active_sessions =
      st.active_sessions ∧
    (handle_chat_message classify now st sender ⟨i, [.text q]⟩).1.agent_to_user_mapping =
      st.agent_to_user_mapping ∧
    resolve (handle_chat_message classify now st sender
        ⟨i, [.text q]⟩).1.agent_to_user_mapping ANALYZER_AGENT_ADDRESS =
      resolve st.agent_to_user_mapping ANALYZER_AGENT_ADDRESS ∧
    (handle_chat_message classify now st sender ⟨i, [.text q]⟩).2 =
      [.ack sender i,
       .send sender (create_text_message out_of_scope_response
         (some (routing_metadata st.nextSessionId .OUT_OF_SCOPE now)))] := by
  rw [handle_out_of_scope classify now st sender q [] i hq hc]
  exact ⟨rfl, rfl, rfl, rfl⟩

/-- C6 witness: the out-of-scope query "hello" at a state with a live analyzer
binding. -/
theorem c6_out_of_scope_creates_no_state_witness :
    (handle_chat_message fallback_yield_classification 0
        { active_sessions := [], agent_to_user_mapping := [(ANALYZER_AGENT_ADDRESS, "U1")],
          nextSessionId := 4 } "U2" ⟨9, [.text "hello"]⟩).1.active_sessions = [] ∧
    (handle_chat_message fallback_yield_classification 0
        { active_sessions := [], agent_to_user_mapping := [(ANALYZER_AGENT_ADDRESS, "U1")],
          nextSessionId := 4 } "U2" ⟨9, [.text "hello"]⟩).1.agent_to_user_mapping =
      [(ANALYZER_AGENT_ADDRESS, "U1")] ∧
    resolve (handle_chat_message fallback_yield_classification 0
        { active_sessions := [], agent_to_user_mapping := [(ANALYZER_AGENT_ADDRESS, "U1")],
          nextSessionId := 4 } "U2" ⟨9, [.text "hello"]⟩).1.agent_to_user_mapping
      ANALYZER_AGENT_ADDRESS =
      resolve [(ANALYZER_AGENT_ADDRESS, "U1")] ANALYZER_AGENT_ADDRESS ∧
    (handle_chat_message fallback_yield_classification 0
        { active_sessions := [], agent_to_user_mapping := [(ANALYZER_AGENT_ADDRESS, "U1")],
          nextSessionId := 4 } "U2" ⟨9, [.text "hello"]⟩).2 =
      [.ack "U2" 9,
       .send "U2" (create_text_message out_of_scope_response
         (some (routing_metadata 4 .OUT_OF_SCOPE 0)))] :=
  c6_out_of_scope_creates_no_state fallback_yield_classification 0
    { active_sessions := [], agent_to_user_mapping := [(ANALYZER_AGENT_ADDRESS, "U1")],
      nextSessionId := 4 } "U2" "hello" 9 (by decide) (by decide)

/-- C3 (amended): texts containing "yield" and "compare" classify
`YIELD_COMPARISON`; texts containing "yield" and "risk" with no comparison
term AND no strategy term classify `RISK_ASSESSMENT`; texts containing
"yield" and none of the comparison, strategy or risk terms classify
`YIELD_ANALYSIS`. -/
theorem c3_fallback_keyword_rules (q : String) :
    (strContains (strToLower q) "yield" = true →
     strContains (strToLower q) "compare" = true →
     fallback_yield_classification q = .YIELD_COMPARISON) ∧
    (strContains (strToLower q) "yield" = true →
     strContains (strToLower q) "risk" = true →
     (∀ k ∈ comparison_keywords, strContains (strToLower q) k = false) →
     (∀ k ∈ strategy_keywords, strContains (strToLower q) k = false) →
     fallback_yield_classification q = .RISK_ASSESSMENT) ∧
    (strContains (strToLower q) "yield" = true →
     (∀ k ∈ comparison_keywords, strContains (strToLower q) k = false) →
     (∀ k ∈ strategy_keywords, strContains (strToLower q) k = false) →
     (∀ k ∈ risk_keywords, strContains (strToLower q) k = false) →
     fallback_yield_classification q = .YIELD_ANALYSIS) := by
  refine ⟨?_, ?_, ?_⟩
  · intro hy hc
    simp [fallback_yield_classification, yield_keywords, comparison_keywords, hy, hc]
  · intro hy hr hcn hsn
    simp only [comparison_keywords, List.mem_cons, List.not_mem_nil, or_false,
      forall_eq_or_imp, forall_eq] at hcn
    simp only [strategy_keywords, List.mem_cons, List.not_mem_nil, or_false,
      forall_eq_or_imp, forall_eq] at hsn
    obtain ⟨hc1, hc2, hc3, hc4, hc5⟩ := hcn
    obtain ⟨hs1, hs2, hs3, hs4, hs5⟩ := hsn
    simp [fallback_yield_classification, yield_keywords, comparison_keywords,
      strategy_keywords, risk_keywords, hy, hr, hc1, hc2, hc3, hc4, hc5,
      hs1, hs2, hs3, hs4, hs5]
  · intro hy hcn hsn hrn
    simp only [comparison_keywords, List.mem_cons, List.not_mem_nil, or_false,
      forall_eq_or_imp, forall_eq] at hcn
    simp only [strategy_keywords, List.mem_cons, List.not_mem_nil, or_false,
      forall_eq_or_imp, forall_eq] at hsn
    simp only [risk_keywords, List.mem_cons, List.not_mem_nil, or_false,
      forall_eq_or_imp, forall_eq] at hrn
    obtain ⟨hc1, hc2, hc3, hc4, hc5⟩ := hcn
    obtain ⟨hs1, hs2, hs3, hs4, hs5⟩ := hsn
    obtain ⟨hr1, hr2, hr3, hr4, hr5⟩ := hrn
    simp [fallback_yield_classification, yield_keywords, comparison_keywords,
      strategy_keywords, risk_keywords, hy, hc1, hc2, hc3, hc4, hc5,
      hs1, hs2, hs3, hs4, hs5, hr1, hr2, hr3, hr4, hr5]

/-- C3 witness: one concrete text per amended rule. -/
theorem c3_fallback_keyword_rules_witness :
    fallback_yield_classification "compare yield apy" = .YIELD_COMPARISON ∧
    fallback_yield_classification "yield risk" = .RISK_ASSESSMENT ∧
    fallback_yield_classification "solana yield" = .YIELD_ANALYSIS :=
  ⟨(c3_fallback_keyword_rules "compare yield apy").1 (by decide) (by decide),
   (c3_fallback_keyword_rules "yield risk").2.1 (by decide) (by decide)
     (by decide) (by decide),
   (c3_fallback_keyword_rules "solana yield").2.2 (by decide) (by decide)
     (by decide) (by decide)⟩

/-- C9 (confirmed): the fallback classifies `OUT_OF_SCOPE` exactly when the
lower-cased text contains none of the yield vocabulary terms as a substring —
so it never classifies a text containing such a term as out of scope. -/
theorem c9_out_of_scope_iff_no_yield_vocab (q : String) :
    fallback_yield_classification q = .OUT_OF_SCOPE ↔
      ∀ k ∈ yield_keywords, strContains (strToLower q) k = false := by
  unfold fallback_yield_classification
  by_cases hy : yield_keywords.any (fun keyword => strContains (strToLower q) keyword) = true
  · simp only [hy, if_pos]
    constructor
    · intro h
      exfalso
      split_ifs at h
    · intro hall
      exfalso
      rcases List.any_eq_true.mp hy with ⟨k, hk, hks⟩
      rw [hall k hk] at hks
      exact Bool.false_ne_true hks
  · simp only [hy, if_neg, Bool.false_eq_true]
    constructor
    · intro _ k hk
      cases hcc : strContains (strToLower q) k with
      | false => rfl
      | true => exact absurd (List.any_eq_true.mpr ⟨k, hk, hcc⟩) hy
    · intro _
      rfl

/-- C9 witness: both directions at concrete inputs. -/
theorem c9_out_of_scope_iff_no_yield_vocab_witness :
    fallback_yield_classification "hello" = .OUT_OF_SCOPE ∧
    (∀ k ∈ yield_keywords, strContains (strToLower "what is solana") k = false) :=
  ⟨(c9_out_of_scope_iff_no_yield_vocab "hello").mpr (by decide),
   (c9_out_of_scope_iff_no_yield_vocab "what is solana").mp (by decide)⟩

/-- C8 (confirmed): every inbound message — whatever its content — produces
exactly one acknowledgement, it references the message's own identifier, it is
addressed to the sender, and it is the first outbound action of the handler. -/
theorem c8_ack_first_and_unique (classify : String → YieldQueryType) (now : Nat)
    (st : RouterState) (sender : String) (msg : ChatMsg) :
    (handle_chat_message classify now st sender msg).2.head? =
      some (.ack sender msg.msg_id) ∧
    (handle_chat_message classify now st sender msg).2.countP OutAction.isAck = 1 := by
  have hna := processItems_no_ack classify now sender msg.content st
  unfold handle_chat_message
  rcases hp : processItems classify now sender st msg.content with ⟨st1, acts⟩
  rw [hp] at hna
  refine ⟨rfl, ?_⟩
  simp only []
  rw [List.countP_cons_of_pos OutAction.isAck acts (by rfl)]
  rw [List.countP_eq_zero.mpr (by intro a ha; simp [hna a ha])]

/-- C10 (confirmed): over any sequence of handled messages, the session store
only grows — the previously stored sessions remain, in place and unchanged,
as a prefix of the store, with new sessions only appended — and session-id
freshness is preserved. -/
theorem c10_sessions_only_grow (classify : String → YieldQueryType)
    (msgs : List (Nat × String × ChatMsg)) (st : RouterState)
    (h : SessionsFresh st) :
    (∃ new, (handleAll classify msgs st).active_sessions =
       st.active_sessions ++ new) ∧
    SessionsFresh (handleAll classify msgs st) :=
  handleAll_sessions_grow classify msgs st h

/-- C10 witness: a concrete two-message run from the initial state. -/
theorem c10_sessions_only_grow_witness :
    (∃ new, (handleAll fallback_yield_classification
        [(0, "U1", ⟨1, [.text "solana staking apy"]⟩),
         (1, "U2", ⟨2, [.text "hello", .endSession]⟩)] initialState).active_sessions =
       initialState.active_sessions ++ new) ∧
    SessionsFresh (handleAll fallback_yield_classification
        [(0, "U1", ⟨1, [.text "solana staking apy"]⟩),
         (1, "U2", ⟨2, [.text "hello", .endSession]⟩)] initialState) :=
  c10_sessions_only_grow fallback_yield_classification
    [(0, "U1", ⟨1, [.text "solana staking apy"]⟩),
     (1, "U2", ⟨2, [.text "hello", .endSession]⟩)] initialState
    (by intro p hp; simp [initialState] at hp)

end LuminYield
